import Mathlib

set_option maxRecDepth 20000
set_option synthInstance.maxSize 2000

/-!
Verification of the Missouri VA access-analytics data-preparation pipeline.

The development shallowly embeds the two core scripts:

  * scripts/clean_mo_waits.py       (value normalizer and state filter with ZIP fallback)
  * scripts/prepare_missouri_data.py (streaming state filter, counters, incremental sinks)

Cell values are modelled as `List Char` (a Python string); a missing value
(pandas NA) is `Option.none` where the code distinguishes it.
-/

namespace MoVA

/-- Whitespace characters removed by the Python str.strip method (ASCII subset). -/
def isPySpace (c : Char) : Bool :=
  c == ' ' || c == '\t' || c == '\n' || c == '\r' || c == '\x0b' || c == '\x0c'

/-- Python str.strip: drop leading and trailing whitespace. -/
def pyStrip (l : List Char) : List Char :=
  ((l.dropWhile isPySpace).reverse.dropWhile isPySpace).reverse

/-- Python str.upper on one ASCII character. -/
def pyUpperChar (c : Char) : Char :=
  if 'a' ≤ c ∧ c ≤ 'z' then Char.ofNat (c.toNat - 32) else c

/-- Python str.upper on a string. -/
def pyUpper (l : List Char) : List Char := l.map pyUpperChar

/-- The substitution re.sub of every character outside A-Z by a space,
as performed inside normalize_state_series (the input is already upper-cased). -/
def subNonUpper (l : List Char) : List Char :=
  l.map fun c => if 'A' ≤ c ∧ c ≤ 'Z' then c else ' '

/-- Helper for `pySplit`: accumulates the current token (reversed). -/
def splitWSAux : List Char → List Char → List (List Char)
  | [], acc => if acc.isEmpty then [] else [acc.reverse]
  | c :: rest, acc =>
    if c == ' ' then
      if acc.isEmpty then splitWSAux rest [] else acc.reverse :: splitWSAux rest []
    else splitWSAux rest (c :: acc)

/-- Python str.split with no separator: split on runs of spaces, dropping empty tokens. -/
def pySplit (l : List Char) : List (List Char) := splitWSAux l []

/-- The STATE_FULL_NAME dictionary of clean_mo_waits.py: two-letter code to full name. -/
def STATE_FULL_NAME : List (List Char × List Char) :=
  [("AL".data, "ALABAMA".data), ("AK".data, "ALASKA".data), ("AZ".data, "ARIZONA".data),
   ("AR".data, "ARKANSAS".data), ("CA".data, "CALIFORNIA".data), ("CO".data, "COLORADO".data),
   ("CT".data, "CONNECTICUT".data), ("DE".data, "DELAWARE".data), ("FL".data, "FLORIDA".data),
   ("GA".data, "GEORGIA".data), ("HI".data, "HAWAII".data), ("ID".data, "IDAHO".data),
   ("IL".data, "ILLINOIS".data), ("IN".data, "INDIANA".data), ("IA".data, "IOWA".data),
   ("KS".data, "KANSAS".data), ("KY".data, "KENTUCKY".data), ("LA".data, "LOUISIANA".data),
   ("ME".data, "MAINE".data), ("MD".data, "MARYLAND".data), ("MA".data, "MASSACHUSETTS".data),
   ("MI".data, "MICHIGAN".data), ("MN".data, "MINNESOTA".data), ("MS".data, "MISSISSIPPI".data),
   ("MO".data, "MISSOURI".data), ("MT".data, "MONTANA".data), ("NE".data, "NEBRASKA".data),
   ("NV".data, "NEVADA".data), ("NH".data, "NEW HAMPSHIRE".data), ("NJ".data, "NEW JERSEY".data),
   ("NM".data, "NEW MEXICO".data), ("NY".data, "NEW YORK".data), ("NC".data, "NORTH CAROLINA".data),
   ("ND".data, "NORTH DAKOTA".data), ("OH".data, "OHIO".data), ("OK".data, "OKLAHOMA".data),
   ("OR".data, "OREGON".data), ("PA".data, "PENNSYLVANIA".data), ("RI".data, "RHODE ISLAND".data),
   ("SC".data, "SOUTH CAROLINA".data), ("SD".data, "SOUTH DAKOTA".data),
   ("TN".data, "TENNESSEE".data), ("TX".data, "TEXAS".data), ("UT".data, "UTAH".data),
   ("VT".data, "VERMONT".data), ("VA".data, "VIRGINIA".data), ("WA".data, "WASHINGTON".data),
   ("WV".data, "WEST VIRGINIA".data), ("WI".data, "WISCONSIN".data), ("WY".data, "WYOMING".data),
   ("DC".data, "DISTRICT OF COLUMBIA".data), ("PR".data, "PUERTO RICO".data)]

/-- The inverted dictionary full_to_code built inside normalize_state_series. -/
def fullToCode : List (List Char × List Char) :=
  STATE_FULL_NAME.map fun p => (p.2, p.1)

/-- The inner function normalize_one of normalize_state_series, applied to a value
that has already been stripped and upper-cased. Branches mirror the source:
exact code, token equal to a code, token equal to a full name, whole value equal
to a full name, otherwise the value itself. -/
def normalize_one (val : List Char) : List Char :=
  if (STATE_FULL_NAME.lookup val).isSome then val
  else
    let tokens := pySplit (subNonUpper val)
    match tokens.find? (fun t => (STATE_FULL_NAME.lookup t).isSome) with
    | some t => t
    | none =>
      match tokens.findSome? (fun t => fullToCode.lookup t) with
      | some c => c
      | none =>
        match fullToCode.lookup val with
        | some c => c
        | none => val

/-- The per-cell action of normalize_state_series: astype(str).str.strip().str.upper()
followed by normalize_one. -/
def normalizeCell (raw : List Char) : List Char :=
  normalize_one (pyUpper (pyStrip raw))

/-- The full name of West Virginia, the one full name containing another full name
as a token. -/
def wvName : List Char := "WEST VIRGINIA".data

/-- Boolean check over the whole table: every code normalizes to itself, and every
full name other than WEST VIRGINIA normalizes to its code. -/
def tableNormOk : Bool :=
  STATE_FULL_NAME.all fun p =>
    normalize_one p.1 == p.1 && (p.2 == wvName || normalize_one p.2 == p.1)

/-- A row of the cleaned-waits frame as seen by filter_state_auto: the raw state
cell (already a string after astype(str)) and the zip cell as a nullable integer
(the astype Int64 view; a missing zip compares as NA, hence excluded). -/
structure MRow where
  state : List Char
  zip : Option Int
deriving DecidableEq

/-- The frame handed to filter_state_auto. Column presence is what the source
tests with the expression: name in df.columns. -/
structure MFrame where
  hasStateCol : Bool
  hasZipCol : Bool
  rows : List MRow
deriving DecidableEq

/-- The ZIP-range test of the MO fallback: 63000 <= z < 65900, false on NA. -/
def zipInMORange (z : Option Int) : Bool :=
  match z with
  | some v => decide (63000 ≤ v) && decide (v < 65900)
  | none => false

/-- The rows kept by the primary normalized-state comparison norm == abbr. -/
def primaryMatch (df : MFrame) (abbr : List Char) : List MRow :=
  df.rows.filter fun r => normalizeCell r.state == abbr

/-- filter_state_auto of clean_mo_waits.py: primary normalized state match when the
state column exists and matched at least one row; otherwise the MO ZIP-range
fallback when the target is MO and a zip column exists; otherwise the frame is
returned unfiltered with strategy none. -/
def filter_state_auto (df : MFrame) (state_abbrev : List Char) : MFrame × List Char :=
  let abbr := pyUpper state_abbrev
  let primary : Option (MFrame × List Char) :=
    if df.hasStateCol then
      let out := primaryMatch df abbr
      if 0 < out.length then some ({ df with rows := out }, "state".data) else none
    else none
  match primary with
  | some res => res
  | none =>
    if abbr == "MO".data && df.hasZipCol then
      ({ df with rows := df.rows.filter fun r => zipInMORange r.zip }, "zip".data)
    else (df, "none".data)

/-- A cell of the streaming pipeline: none is pandas NA. -/
abbrev Cell := Option (List Char)

/-- A row of the streaming pipeline, keyed by column name. -/
abbrev PRow := List (List Char × Cell)

/-- A record batch with its column schema, as handed to state_filter. -/
structure PFrame where
  cols : List (List Char)
  rows : List PRow
deriving DecidableEq

/-- Reading one cell of a row; an absent key behaves as NA. -/
def getCell (r : PRow) (col : List Char) : Cell :=
  match r.lookup col with
  | some v => v
  | none => none

/-- normalize_state of prepare_missouri_data.py: astype(string).str.strip().str.upper(),
with NA preserved as NA. -/
def normalizeStateCell (c : Cell) : Cell :=
  c.map fun v => pyUpper (pyStrip v)

/-- The membership test a row passes in state_filter: its normalized state cell is
in the allow-list; NA never matched (pandas isin is false on NA). -/
def rowMatches (allowed : List (List Char)) (col : List Char) (r : PRow) : Bool :=
  match normalizeStateCell (getCell r col) with
  | some v => allowed.contains v
  | none => false

/-- The diagnostic raised by state_filter when the column is absent. -/
def keyErrorMsg (col : List Char) : List Char :=
  "State column not found in input data: ".data ++ col

/-- state_filter of prepare_missouri_data.py: raises KeyError when the state column
is missing, otherwise keeps the rows whose normalized value is in the allow-list. -/
def state_filter (df : PFrame) (col : List Char) (allowed : List (List Char)) :
    Except (List Char) PFrame :=
  if df.cols.contains col then
    .ok { df with rows := df.rows.filter (rowMatches allowed col) }
  else .error (keyErrorMsg col)

/-- A source CSV file: a header and the parsed field lists of its data lines.
A field that is empty in the file is the NA cell. -/
structure SourceFile where
  header : List (List Char)
  lines : List (List Cell)
deriving DecidableEq

/-- The tolerant reader of make_reader: a line with more fields than the header is
a bad line and is skipped silently (on_bad_lines equal to skip under the python
engine); a line with fewer fields is padded with NA. -/
def lineToRow (header : List (List Char)) (line : List Cell) : PRow :=
  header.zip (line ++ List.replicate (header.length - line.length) none)

/-- The rows actually delivered by the tolerant reader, in file order. -/
def parsedRows (f : SourceFile) : List PRow :=
  (f.lines.filter fun l => decide (l.length ≤ f.header.length)).map (lineToRow f.header)

/-- The data lines silently dropped by the tolerant reader (wrong field count). -/
def droppedLines (f : SourceFile) : Nat :=
  (f.lines.filter fun l => decide (f.header.length < l.length)).length

/-- Fuel-driven chunking helper; the fuel is an upper bound on the list length. -/
def chunksOfAux : Nat → Nat → List PRow → List (List PRow)
  | 0, _, _ => []
  | _, _, [] => []
  | fuel + 1, n, x :: xs => (x :: xs.take n) :: chunksOfAux fuel n (xs.drop n)

/-- Decomposition of the delivered rows into reader chunks of size n + 1, mirroring
the chunksize argument of read_csv (chunksize is at least one). -/
def chunksOf (n : Nat) (l : List PRow) : List (List PRow) :=
  chunksOfAux l.length n l

/-- The per-file counters of process_files. -/
structure Counters where
  in_rows : Nat
  out_rows : Nat
  empty_rows : Nat
deriving DecidableEq

/-- A row all of whose cells are NA, matched by chunk.isna().all(axis=1). -/
def fullyEmpty (r : PRow) : Bool :=
  r.all fun p => p.2 == none

/-- One iteration of the chunk loop of process_files: count the fully empty rows,
filter the chunk, and bump the counters; a missing state column propagates the
KeyError. -/
def processChunk (header : List (List Char)) (col : List Char) (allowed : List (List Char))
    (c : Counters) (chunk : List PRow) : Except (List Char) (Counters × List PRow) :=
  let broken := chunk.filter fullyEmpty
  match state_filter ⟨header, chunk⟩ col allowed with
  | .error e => .error e
  | .ok filtered =>
      .ok (⟨c.in_rows + chunk.length,
            c.out_rows + filtered.rows.length,
            c.empty_rows + broken.length⟩, filtered.rows)

/-- The chunk loop of process_files over one file, collecting the filtered batches
that are handed to the writer in order. -/
def processChunks (header : List (List Char)) (col : List Char) (allowed : List (List Char)) :
    Counters → List (List PRow) → Except (List Char) (Counters × List (List PRow))
  | c, [] => .ok (c, [])
  | c, ch :: rest =>
    match processChunk header col allowed c ch with
    | .error e => .error e
    | .ok (c1, w) =>
      match processChunks header col allowed c1 rest with
      | .error e => .error e
      | .ok (c2, ws) => .ok (c2, w :: ws)

/-- Processing of one source file: fresh per-file counters, reader chunks of size
n + 1, and the filtered batches in write order. -/
def processFile (f : SourceFile) (col : List Char) (allowed : List (List Char)) (n : Nat) :
    Except (List Char) (Counters × List (List PRow)) :=
  processChunks f.header col allowed ⟨0, 0, 0⟩ (chunksOf n (parsedRows f))

/-- The CSVStreamWriter state: the compress flag, the wrote_header flag, and the
output file content, none while the file has not been created. Each appended
entry records whether it carried the header together with its rows. -/
structure CSVStreamWriter where
  compress : Bool
  wrote_header : Bool
  file : Option (List (Bool × List PRow))
deriving DecidableEq

/-- A fresh CSV writer: flag false, no file yet. -/
def CSVStreamWriter.init (compress : Bool) : CSVStreamWriter :=
  ⟨compress, false, none⟩

/-- CSVStreamWriter.write: an empty batch returns immediately; a non-empty batch
is appended with the header exactly when the flag is still false, and the flag
is then set. -/
def CSVStreamWriter.write (st : CSVStreamWriter) (df : List PRow) : CSVStreamWriter :=
  if df.isEmpty then st
  else
    { compress := st.compress
      wrote_header := true
      file := some ((st.file.getD []) ++ [(!st.wrote_header, df)]) }

/-- Decimal digits of a natural number, zero padded on the left to width five,
mirroring the python format with 05d. -/
def pad5 (n : Nat) : List Char :=
  let s := Nat.toDigits 10 n
  List.replicate (5 - s.length) '0' ++ s

/-- The part-file name emitted by ParquetChunkWriter for part number n. -/
def partName (base : List Char) (n : Nat) : List Char :=
  base ++ "_part-".data ++ pad5 n ++ ".parquet".data

/-- The ParquetChunkWriter state: base name, part counter, and the part files
already written, each with its name and rows. -/
structure ParquetChunkWriter where
  base : List Char
  counter : Nat
  files : List (List Char × List PRow)
deriving DecidableEq

/-- ParquetChunkWriter.write: an empty batch returns immediately; a non-empty
batch advances the counter and emits one part file named after it. -/
def ParquetChunkWriter.write (st : ParquetChunkWriter) (df : List PRow) : ParquetChunkWriter :=
  if df.isEmpty then st
  else
    { base := st.base
      counter := st.counter + 1
      files := st.files ++ [(partName st.base (st.counter + 1), df)] }

/-- A run of the CSV writer over a sequence of filtered batches. -/
def csvRun (bs : List (List PRow)) : CSVStreamWriter :=
  bs.foldl CSVStreamWriter.write (CSVStreamWriter.init false)

/-- A run of the parquet writer over a sequence of filtered batches. -/
def pqRun (base : List Char) (bs : List (List PRow)) : ParquetChunkWriter :=
  bs.foldl ParquetChunkWriter.write ⟨base, 0, []⟩

/-- The sink selected by process_files for the whole run. -/
inductive Sink where
  | csvSink (st : CSVStreamWriter)
  | pqSink (st : ParquetChunkWriter)
deriving DecidableEq

/-- Dispatching one batch to the active sink. -/
def Sink.write : Sink → List PRow → Sink
  | .csvSink st, df => .csvSink (st.write df)
  | .pqSink st, df => .pqSink (st.write df)

/-- The output target resolved by build_output_targets. -/
inductive SinkTarget where
  | csvT (path : List Char)
  | csvgzT (path : List Char)
  | pqT (base : List Char)
deriving DecidableEq

/-- build_output_targets of prepare_missouri_data.py: the three known formats map
to their fixed output names; anything else raises ValueError. -/
def build_output_targets (fmt : List Char) : Except (List Char) SinkTarget :=
  if fmt == "csv".data then .ok (.csvT "consult_waits_state_subset.csv".data)
  else if fmt == "csv.gz".data then .ok (.csvgzT "consult_waits_state_subset.csv.gz".data)
  else if fmt == "parquet".data then .ok (.pqT "consult_waits_state_subset".data)
  else .error ("Unknown output format: ".data ++ fmt)

/-- The writer prepared from a target before the first chunk is read. -/
def initSink : SinkTarget → Sink
  | .csvT _ => .csvSink (CSVStreamWriter.init false)
  | .csvgzT _ => .csvSink (CSVStreamWriter.init true)
  | .pqT base => .pqSink ⟨base, 0, []⟩

/-- The aggregate counters of process_files. -/
structure Totals where
  total_in : Nat
  total_out : Nat
  total_bad_empty : Nat
deriving DecidableEq

/-- The per-file loop of process_files: each file is processed with fresh per-file
counters, its filtered batches are written in order, and the totals accumulate. -/
def runFiles (col : List Char) (allowed : List (List Char)) (n : Nat) :
    Totals × Sink → List SourceFile → Except (List Char) (Totals × Sink)
  | acc, [] => .ok acc
  | acc, f :: rest =>
    match processFile f col allowed n with
    | .error e => .error e
    | .ok (c, ws) =>
      runFiles col allowed n
        (⟨acc.1.total_in + c.in_rows,
          acc.1.total_out + c.out_rows,
          acc.1.total_bad_empty + c.empty_rows⟩,
         ws.foldl Sink.write acc.2) rest

/-- process_files of prepare_missouri_data.py: normalize the allow-list, resolve
the output target, prepare the writer, then stream the files. -/
def process_files (files : List SourceFile) (fmt col : List Char)
    (states : List (List Char)) (n : Nat) : Except (List Char) (Totals × Sink) :=
  let allowed := states.map fun s => pyUpper (pyStrip s)
  match build_output_targets fmt with
  | .error e => .error e
  | .ok tgt => runFiles col allowed n (⟨0, 0, 0⟩, initSink tgt) files

/-- discover_files of prepare_missouri_data.py over the result of the glob:
an empty match raises FileNotFoundError naming the pattern. -/
def discover_files (globbed : List SourceFile) (pattern : List Char) :
    Except (List Char) (List SourceFile) :=
  if globbed.isEmpty then .error ("No input files found for pattern: ".data ++ pattern)
  else .ok globbed

/-- The validation argparse performs on the choices of the to option. -/
def argparseOk (fmt : List Char) : Bool :=
  fmt == "csv".data || fmt == "csv.gz".data || fmt == "parquet".data

/-- main of prepare_missouri_data.py after argument parsing: discover the inputs,
then stream; discovery happens before any batch is read or written, and any
error short-circuits the rest. -/
def mainRun (globbed : List SourceFile) (pattern fmt col : List Char)
    (states : List (List Char)) (n : Nat) : Except (List Char) (Totals × Sink) :=
  match discover_files globbed pattern with
  | .error e => .error e
  | .ok files => process_files files fmt col states n

/-- The process exit status: argparse rejects an unknown format with status two
before main runs; an exception escaping main (directly for discovery, via the
SystemExit re-raise for processing) yields status one; success yields zero. -/
def cliExit (globbed : List SourceFile) (pattern fmt col : List Char)
    (states : List (List Char)) (n : Nat) : Nat :=
  if argparseOk fmt then
    match mainRun globbed pattern fmt col states n with
    | .ok _ => 0
    | .error _ => 1
  else 2

/-- The state-value allow-list produced by argparse for the append action with a
list default: the default entry MISSOURI is kept and user occurrences are
appended after it. -/
def parseStateValues (user : List (List Char)) : List (List Char) :=
  "MISSOURI".data :: user

/-- The branch guards of normalize_one that recognize a value: exact code, a token
equal to a code, a token equal to a full name, the whole value equal to a full
name. -/
def recognizedVal (val : List Char) : Bool :=
  (STATE_FULL_NAME.lookup val).isSome
  || (pySplit (subNonUpper val)).any (fun t => (STATE_FULL_NAME.lookup t).isSome)
  || (pySplit (subNonUpper val)).any (fun t => (fullToCode.lookup t).isSome)
  || (fullToCode.lookup val).isSome

/-- The table-wide normalization check holds by evaluation. -/
theorem tableNormOk_eq_true : tableNormOk = true := by decide

/-- Every two-letter code of the table normalizes to itself. -/
theorem normalize_one_code {code name : List Char}
    (h : (code, name) ∈ STATE_FULL_NAME) : normalize_one code = code := by
  have h0 : STATE_FULL_NAME.all
      (fun p => normalize_one p.1 == p.1 && (p.2 == wvName || normalize_one p.2 == p.1))
      = true := tableNormOk_eq_true
  have hall := List.all_eq_true.mp h0 _ h
  simp only [Bool.and_eq_true, Bool.or_eq_true, beq_iff_eq] at hall
  exact hall.1

/-- Every full name of the table other than WEST VIRGINIA normalizes to its code. -/
theorem normalize_one_fullname {code name : List Char}
    (h : (code, name) ∈ STATE_FULL_NAME) (hne : name ≠ wvName) :
    normalize_one name = code := by
  have h0 : STATE_FULL_NAME.all
      (fun p => normalize_one p.1 == p.1 && (p.2 == wvName || normalize_one p.2 == p.1))
      = true := tableNormOk_eq_true
  have hall := List.all_eq_true.mp h0 _ h
  simp only [Bool.and_eq_true, Bool.or_eq_true, beq_iff_eq] at hall
  rcases hall.2 with h1 | h2
  · exact absurd h1 hne
  · exact h2

/-- An unrecognized value falls through every branch of normalize_one and is
returned unchanged. -/
theorem normalize_one_unrecognized {val : List Char}
    (h : recognizedVal val = false) : normalize_one val = val := by
  unfold recognizedVal at h
  simp only [Bool.or_eq_false_iff] at h
  obtain ⟨⟨⟨h1, h2⟩, h3⟩, h4⟩ := h
  have hf1 : (pySplit (subNonUpper val)).find?
      (fun t => (STATE_FULL_NAME.lookup t).isSome) = none := by
    rw [List.find?_eq_none]
    intro x hx
    exact List.any_eq_false.mp h2 x hx
  have hf2 : (pySplit (subNonUpper val)).findSome?
      (fun t => fullToCode.lookup t) = none := by
    rw [List.findSome?_eq_none_iff]
    intro x hx
    have := List.any_eq_false.mp h3 x hx
    exact Option.not_isSome_iff_eq_none.mp this
  have h4n : fullToCode.lookup val = none := Option.not_isSome_iff_eq_none.mp (by simp [h4])
  unfold normalize_one
  rw [h1]
  simp only [Bool.false_eq_true, if_false, hf1, hf2, h4n]

/-- A membership in an association list makes lookup succeed. -/
theorem lookup_isSome_of_mem {a : List Char} {b : List Char}
    {l : List (List Char × List Char)} (h : (a, b) ∈ l) :
    (l.lookup a).isSome = true := by
  induction l with
  | nil => cases h
  | cons p t ih =>
    rcases List.mem_cons.mp h with rfl | hmem
    · simp [List.lookup]
    · by_cases hk : a == p.1
      · cases p; simp [List.lookup, hk]
      · cases p
        simp only [List.lookup, hk]
        exact ih hmem

/-- C1, amended. For every raw cell value whose stripped and upper-cased form is a
valid two-letter code, normalize_state_series returns that code; for every raw
cell value whose stripped and upper-cased form is a full jurisdiction name other
than WEST VIRGINIA, it returns that name's code. WEST VIRGINIA is excluded: the
token VIRGINIA matches the full name of Virginia before the whole-value match is
tried, so that spelling normalizes to VA instead of WV. -/
theorem C1_normalizer_canonical (raw code name : List Char)
    (hmem : (code, name) ∈ STATE_FULL_NAME) :
    (pyUpper (pyStrip raw) = code → normalizeCell raw = code) ∧
    (name ≠ wvName → pyUpper (pyStrip raw) = name → normalizeCell raw = code) := by
  constructor
  · intro h
    unfold normalizeCell
    rw [h]
    exact normalize_one_code hmem
  · intro hne h
    unfold normalizeCell
    rw [h]
    exact normalize_one_fullname hmem hne

/-- Witness for C1 at a concrete input: the padded mixed-case full name of
Missouri normalizes to MO. -/
theorem C1_normalizer_canonical_witness :
    ("MO".data, "MISSOURI".data) ∈ STATE_FULL_NAME ∧
    normalizeCell " Missouri ".data = "MO".data := by
  refine ⟨by decide, ?_⟩
  exact (C1_normalizer_canonical " Missouri ".data "MO".data "MISSOURI".data
    (by decide)).2 (by decide) (by decide)

/-- Counterexample to C1 as stated: WEST VIRGINIA is the full name of the
jurisdiction whose code is WV, yet the normalizer returns VA for it, so not all
spellings of West Virginia normalize to the same canonical code. -/
theorem C1_counterexample :
    ("WV".data, "WEST VIRGINIA".data) ∈ STATE_FULL_NAME ∧
    normalizeCell " West Virginia ".data = "VA".data ∧
    normalizeCell "WV".data = "WV".data ∧
    "VA".data ≠ "WV".data := by
  exact ⟨by decide, by decide, by decide, by decide⟩

/-- C7. An unrecognized raw value (no code, no full name, no recognized token,
including the empty value) is passed through the normalizer unchanged apart from
the stripping and upper-casing the series receives first, it differs from every
canonical code, and no row carrying it survives the primary match filter. -/
theorem C7_unrecognized_passthrough (raw : List Char)
    (h : recognizedVal (pyUpper (pyStrip raw)) = false) :
    normalizeCell raw = pyUpper (pyStrip raw) ∧
    (∀ code name : List Char, (code, name) ∈ STATE_FULL_NAME → normalizeCell raw ≠ code) ∧
    (∀ (df : MFrame) (code name : List Char), (code, name) ∈ STATE_FULL_NAME →
      ∀ r ∈ primaryMatch df code, r.state ≠ raw) := by
  have h1 : normalizeCell raw = pyUpper (pyStrip raw) := normalize_one_unrecognized h
  have h2 : ∀ code name : List Char, (code, name) ∈ STATE_FULL_NAME →
      normalizeCell raw ≠ code := by
    intro code name hmem heq
    have hys : (STATE_FULL_NAME.lookup code).isSome = true := lookup_isSome_of_mem hmem
    have hno : (STATE_FULL_NAME.lookup (pyUpper (pyStrip raw))).isSome = false := by
      unfold recognizedVal at h
      simp only [Bool.or_eq_false_iff] at h
      exact h.1.1.1
    rw [h1] at heq
    rw [heq] at hno
    rw [hys] at hno
    cases hno
  refine ⟨h1, h2, ?_⟩
  intro df code name hmem r hr hstate
  have hm := (List.mem_filter.mp hr).2
  rw [hstate] at hm
  exact h2 code name hmem (by rwa [beq_iff_eq] at hm)

/-- Witness for C7 at a concrete input: the value foo with padding is passed
through as FOO and a frame containing it keeps only the MO row. -/
theorem C7_unrecognized_witness :
    recognizedVal (pyUpper (pyStrip " foo ".data)) = false ∧
    normalizeCell " foo ".data = "FOO".data ∧
    (∀ r ∈ primaryMatch ⟨true, true, [⟨" foo ".data, some 63111⟩, ⟨"MO".data, some 63112⟩]⟩
        "MO".data, r.state ≠ " foo ".data) := by
  refine ⟨by decide, ?_, ?_⟩
  · exact ((C7_unrecognized_passthrough " foo ".data (by decide)).1).trans (by decide)
  · exact (C7_unrecognized_passthrough " foo ".data (by decide)).2.2
      ⟨true, true, [⟨" foo ".data, some 63111⟩, ⟨"MO".data, some 63112⟩]⟩
      "MO".data "MISSOURI".data (by decide)

/-- Row MO of the four-row scenario. -/
def mrowMO : MRow := ⟨"MO".data, some 65201⟩

/-- Row Missouri of the four-row scenario. -/
def mrowMissouri : MRow := ⟨"Missouri".data, some 63101⟩

/-- Row KS of the four-row scenario. -/
def mrowKS : MRow := ⟨"KS".data, some 66002⟩

/-- Blank-state row of the four-row scenario. -/
def mrowBlank : MRow := ⟨"".data, some 65301⟩

/-- The four-row concrete scenario of the spec: header state, zip, dtot. -/
def scenario4 : MFrame := ⟨true, true, [mrowMO, mrowMissouri, mrowKS, mrowBlank]⟩

/-- The hundred-row all-blank scenario with ZIP values 63000 and upward. -/
def scenario100 : MFrame :=
  ⟨true, true, (List.range 100).map fun i => ⟨"".data, some (63000 + (i : Int))⟩⟩

/-- filter_state_auto returns the primary match with strategy state when the state
column exists and at least one row matches. -/
theorem filter_state_auto_primary (df : MFrame) (hs : df.hasStateCol = true)
    (hn : primaryMatch df "MO".data ≠ []) :
    filter_state_auto df "MO".data =
      ({ df with rows := primaryMatch df "MO".data }, "state".data) := by
  have hlen : 0 < (primaryMatch df "MO".data).length := List.length_pos.mpr hn
  simp only [filter_state_auto, hs, if_true]
  have habbr : pyUpper "MO".data = "MO".data := rfl
  rw [habbr]
  simp [hlen]

/-- filter_state_auto falls back to the MO ZIP range with strategy zip when the
primary match is empty or the state column absent, and a zip column exists. -/
theorem filter_state_auto_zip (df : MFrame) (hz : df.hasZipCol = true)
    (hp : df.hasStateCol = false ∨ primaryMatch df "MO".data = []) :
    filter_state_auto df "MO".data =
      ({ df with rows := df.rows.filter fun r => zipInMORange r.zip }, "zip".data) := by
  have habbr : pyUpper "MO".data = "MO".data := rfl
  rcases hp with hs | hempty
  · simp only [filter_state_auto, hs]
    simp [hz]
    decide
  · simp only [filter_state_auto]
    rw [habbr, hempty]
    simp [hz]

/-- C2. Filtering for target MO: a non-empty primary normalized match returns
exactly those rows with strategy state (the blank and unrecognized rows are
excluded, and the four-row scenario keeps two rows); an empty primary match with
a zip column present returns exactly the rows with ZIP in 63000 to 65899 with
the zip fallback strategy (the hundred-row all-blank scenario keeps all rows). -/
theorem C2_target_state_filtering :
    (∀ df : MFrame, df.hasStateCol = true → primaryMatch df "MO".data ≠ [] →
      filter_state_auto df "MO".data =
        ({ df with rows := primaryMatch df "MO".data }, "state".data)) ∧
    (∀ df : MFrame, df.hasStateCol = true → primaryMatch df "MO".data = [] →
      df.hasZipCol = true →
      filter_state_auto df "MO".data =
        ({ df with rows := df.rows.filter fun r => zipInMORange r.zip }, "zip".data)) ∧
    filter_state_auto scenario4 "MO".data =
      ({ scenario4 with rows := [mrowMO, mrowMissouri] }, "state".data) ∧
    filter_state_auto scenario100 "MO".data = (scenario100, "zip".data) ∧
    scenario100.rows.length = 100 := by
  refine ⟨?_, ?_, by decide, by decide, by decide⟩
  · intro df hs hn
    exact filter_state_auto_primary df hs hn
  · intro df hs hempty hz
    exact filter_state_auto_zip df hz (Or.inr hempty)

/-- Witness for C2 at a concrete input: a one-row frame whose single row is MO is
returned whole with strategy state. -/
theorem C2_target_state_filtering_witness :
    filter_state_auto ⟨true, false, [mrowMO]⟩ "MO".data =
      (⟨true, false, [mrowMO]⟩, "state".data) := by
  have h := (C2_target_state_filtering).1 ⟨true, false, [mrowMO]⟩ rfl (by decide)
  rw [h]
  decide

/-- A frame whose schema has neither the state column nor the zip column. -/
def noStateFrame : MFrame := ⟨false, false, [⟨"MO".data, none⟩]⟩

/-- Counterexample to C3 as stated: in clean_mo_waits, a frame lacking the state
column raises no error at all; with no zip column either, the frame is returned
unfiltered with strategy none, silently continuing the run. -/
theorem C3_counterexample :
    filter_state_auto noStateFrame "MO".data = (noStateFrame, "none".data) ∧
    noStateFrame.rows.length = 1 := by decide

/-- C3, amended. In prepare_missouri_data, state_filter raises the KeyError
diagnostic whenever the configured jurisdiction column is absent, so that run
never silently continues; in clean_mo_waits, filter_state_auto does not signal a
missing state column: it applies the ZIP fallback when a zip column exists for
target MO, and otherwise returns the input unfiltered with strategy none. -/
theorem C3_missing_column_behavior (df : PFrame) (col : List Char)
    (allowed : List (List Char)) (hcol : df.cols.contains col = false) :
    state_filter df col allowed = .error (keyErrorMsg col) ∧
    (∀ m : MFrame, m.hasStateCol = false → m.hasZipCol = false →
      filter_state_auto m "MO".data = (m, "none".data)) ∧
    (∀ m : MFrame, m.hasStateCol = false → m.hasZipCol = true →
      filter_state_auto m "MO".data =
        ({ m with rows := m.rows.filter fun r => zipInMORange r.zip }, "zip".data)) := by
  refine ⟨?_, ?_, ?_⟩
  · unfold state_filter
    rw [if_neg (by rw [hcol]; simp)]
  · intro m hs hz
    simp [filter_state_auto, hs, hz]
  · intro m hs hz
    exact filter_state_auto_zip m hz (Or.inl hs)

/-- Witness for C3 at a concrete input: a frame with only a zip column makes
state_filter fail with the KeyError diagnostic. -/
theorem C3_missing_column_witness :
    state_filter ⟨["zip".data], []⟩ "state".data ["MISSOURI".data] =
      .error (keyErrorMsg "state".data) :=
  (C3_missing_column_behavior ⟨["zip".data], []⟩ "state".data ["MISSOURI".data]
    (by decide)).1

/-- A sample non-empty row used by concrete writer runs. -/
def prow1 : PRow := [("state".data, some "MISSOURI".data)]

/-- Folding the CSV writer from a post-header state appends every non-empty batch
without a header and leaves empty batches without effect. -/
theorem csv_fold_after_header (bs : List (List PRow)) :
    ∀ (compress : Bool) (l : List (Bool × List PRow)),
      bs.foldl CSVStreamWriter.write ⟨compress, true, some l⟩ =
        ⟨compress, true,
         some (l ++ (bs.filter fun b => !b.isEmpty).map fun r => ((false : Bool), r))⟩ := by
  induction bs with
  | nil =>
    intro compress l
    simp
  | cons b rest ih =>
    intro compress l
    by_cases hb : b.isEmpty = true
    · have hw : CSVStreamWriter.write ⟨compress, true, some l⟩ b = ⟨compress, true, some l⟩ := by
        unfold CSVStreamWriter.write
        rw [if_pos hb]
      simp only [List.foldl_cons, hw, List.filter_cons, hb]
      rw [ih]
      simp
    · have hw : CSVStreamWriter.write ⟨compress, true, some l⟩ b =
          ⟨compress, true, some (l ++ [((false : Bool), b)])⟩ := by
        unfold CSVStreamWriter.write
        rw [if_neg hb]
        rfl
      simp only [List.foldl_cons, hw, List.filter_cons]
      rw [ih]
      simp [hb, List.append_assoc]

/-- Characterization of a whole CSV writer run: no non-empty batch leaves the
initial state; otherwise the header goes out with the first non-empty batch and
every later non-empty batch is appended without it. -/
theorem csvRun_characterization (bs : List (List PRow)) (compress : Bool) :
    bs.foldl CSVStreamWriter.write (CSVStreamWriter.init compress) =
      (match bs.filter fun b => !b.isEmpty with
       | [] => CSVStreamWriter.init compress
       | b :: rest =>
         ⟨compress, true, some (((true : Bool), b) :: rest.map fun r => ((false : Bool), r))⟩) := by
  induction bs with
  | nil => simp
  | cons b rest ih =>
    by_cases hb : b.isEmpty = true
    · have hw : CSVStreamWriter.write (CSVStreamWriter.init compress) b =
          CSVStreamWriter.init compress := by
        unfold CSVStreamWriter.write
        rw [if_pos hb]
      simp only [List.foldl_cons, hw, List.filter_cons, hb]
      rw [ih]
      simp
    · have hw : CSVStreamWriter.write (CSVStreamWriter.init compress) b =
          ⟨compress, true, some [((true : Bool), b)]⟩ := by
        unfold CSVStreamWriter.write CSVStreamWriter.init
        rw [if_neg hb]
        rfl
      simp only [List.foldl_cons, hw, List.filter_cons]
      rw [csv_fold_after_header]
      simp [hb]

/-- The wrote_header flag after any run records exactly whether a non-empty batch
has been written so far. -/
theorem csv_flag (bs : List (List PRow)) (compress : Bool) :
    (bs.foldl CSVStreamWriter.write (CSVStreamWriter.init compress)).wrote_header =
      !((bs.filter fun b => !b.isEmpty).isEmpty) := by
  rw [csvRun_characterization]
  cases h : bs.filter fun b => !b.isEmpty with
  | nil => rfl
  | cons b t => rfl

/-- C5. In single-file sink mode, the header goes out exactly once, with the first
non-empty batch; every later non-empty batch appends rows only; and after any
prefix of the batch sequence the header-written flag is set exactly when a
non-empty batch has already been written, so it flips from false to true once,
on the first non-empty write. -/
theorem C5_header_once (bs : List (List PRow)) (compress : Bool) :
    ((bs.foldl CSVStreamWriter.write (CSVStreamWriter.init compress)).file =
      (match bs.filter fun b => !b.isEmpty with
       | [] => none
       | b :: rest => some (((true : Bool), b) :: rest.map fun r => ((false : Bool), r)))) ∧
    ((((bs.foldl CSVStreamWriter.write (CSVStreamWriter.init compress)).file.getD []).filter
        fun e => e.1).length = if (bs.filter fun b => !b.isEmpty).isEmpty then 0 else 1) ∧
    (∀ i : Nat,
      ((bs.take i).foldl CSVStreamWriter.write (CSVStreamWriter.init compress)).wrote_header =
        !(((bs.take i).filter fun b => !b.isEmpty).isEmpty)) := by
  refine ⟨?_, ?_, fun i => csv_flag (bs.take i) compress⟩
  · rw [csvRun_characterization]
    cases h : bs.filter fun b => !b.isEmpty with
    | nil => rfl
    | cons b t => rfl
  · rw [csvRun_characterization]
    cases h : bs.filter fun b => !b.isEmpty with
    | nil => rfl
    | cons b t =>
      simp [List.filter_map, Function.comp]

/-- Witness for C5 at a concrete input: one empty and two non-empty batches give a
file whose first entry carries the header and whose second does not. -/
theorem C5_header_once_witness :
    (([[], [prow1], [prow1]] : List (List PRow)).foldl CSVStreamWriter.write
        (CSVStreamWriter.init false)).file =
      some [((true : Bool), [prow1]), ((false : Bool), [prow1])] := by
  have h := (C5_header_once [[], [prow1], [prow1]] false).1
  rw [h]
  decide

/-- Sequential part numbering of the non-empty batches from a starting counter. -/
def numberFrom (base : List Char) : Nat → List (List PRow) → List (List Char × List PRow)
  | _, [] => []
  | c, b :: rest => (partName base (c + 1), b) :: numberFrom base (c + 1) rest

/-- Folding the parquet writer advances the counter by the number of non-empty
batches and emits exactly their sequentially numbered part files. -/
theorem pq_fold (bs : List (List PRow)) :
    ∀ (base : List Char) (c : Nat) (fs : List (List Char × List PRow)),
      bs.foldl ParquetChunkWriter.write ⟨base, c, fs⟩ =
        ⟨base, c + (bs.filter fun b => !b.isEmpty).length,
         fs ++ numberFrom base c (bs.filter fun b => !b.isEmpty)⟩ := by
  induction bs with
  | nil =>
    intro base c fs
    simp [numberFrom]
  | cons b rest ih =>
    intro base c fs
    by_cases hb : b.isEmpty = true
    · have hw : ParquetChunkWriter.write ⟨base, c, fs⟩ b = ⟨base, c, fs⟩ := by
        unfold ParquetChunkWriter.write
        rw [if_pos hb]
      simp only [List.foldl_cons, hw, List.filter_cons, hb]
      rw [ih]
      simp
    · have hw : ParquetChunkWriter.write ⟨base, c, fs⟩ b =
          ⟨base, c + 1, fs ++ [(partName base (c + 1), b)]⟩ := by
        unfold ParquetChunkWriter.write
        rw [if_neg hb]
      simp only [List.foldl_cons, hw, List.filter_cons]
      rw [ih]
      simp only [hb, Bool.not_false, if_pos, List.length_cons, numberFrom, List.append_assoc,
        List.cons_append, List.nil_append]
      have harith : c + 1 + ((rest.filter fun b => !b.isEmpty).length) =
          c + (((rest.filter fun b => !b.isEmpty).length) + 1) := by omega
      rw [harith]

/-- The emitted part names are the zero-padded numbers following the starting
counter, in order. -/
theorem numberFrom_names (base : List Char) :
    ∀ (nb : List (List PRow)) (c : Nat),
      (numberFrom base c nb).map Prod.fst =
        (List.range nb.length).map fun i => partName base (c + i + 1) := by
  intro nb
  induction nb with
  | nil =>
    intro c
    simp [numberFrom]
  | cons b t ih =>
    intro c
    simp only [numberFrom, List.map_cons, List.length_cons, List.range_succ_eq_map,
      ih (c + 1), List.map_map]
    have hfun : ((fun i => partName base (c + i + 1)) ∘ Nat.succ) =
        fun i => partName base (c + 1 + i + 1) := by
      funext i
      simp only [Function.comp]
      congr 1
      omega
    rw [hfun]

/-- C6. In chunked-columnar sink mode, a run over exactly k non-empty batches
produces exactly k part files whose names carry the zero-padded suffixes 00001
through k in write order, and the part counter finishes at k; the three-batch
concrete scenario yields the three expected file names. -/
theorem C6_parquet_part_files (base : List Char) (bs : List (List PRow)) :
    ((pqRun base bs).files.map Prod.fst =
      (List.range ((bs.filter fun b => !b.isEmpty).length)).map fun i => partName base (i + 1)) ∧
    (pqRun base bs).counter = (bs.filter fun b => !b.isEmpty).length ∧
    (pqRun "consult_waits_state_subset".data [[prow1], [prow1], [prow1]]).files.map Prod.fst =
      ["consult_waits_state_subset_part-00001.parquet".data,
       "consult_waits_state_subset_part-00002.parquet".data,
       "consult_waits_state_subset_part-00003.parquet".data] := by
  refine ⟨?_, ?_, by decide⟩
  · unfold pqRun
    rw [pq_fold]
    simp only [List.nil_append]
    rw [numberFrom_names]
    congr 1
    funext i
    congr 1
    omega
  · unfold pqRun
    rw [pq_fold]
    simp

/-- Witness for C6 at a concrete input: a single non-empty batch yields the single
part file numbered 00001. -/
theorem C6_parquet_part_files_witness :
    (pqRun "b".data [[prow1]]).files.map Prod.fst = ["b_part-00001.parquet".data] := by
  have h := (C6_parquet_part_files "b".data [[prow1]]).1
  rw [h]
  decide

/-- C10. Writing an empty batch is a no-op for both sinks: the CSV writer state
(flag and file) and the parquet writer state (counter and files) are unchanged,
and a run whose batches are all empty leaves the single-file sink in its initial
state with no file created at all. -/
theorem C10_empty_batch_noop :
    (∀ st : CSVStreamWriter, st.write [] = st) ∧
    (∀ st : ParquetChunkWriter, st.write [] = st) ∧
    (∀ (bs : List (List PRow)) (compress : Bool), (∀ b ∈ bs, b = ([] : List PRow)) →
      bs.foldl CSVStreamWriter.write (CSVStreamWriter.init compress) =
          CSVStreamWriter.init compress ∧
        (bs.foldl CSVStreamWriter.write (CSVStreamWriter.init compress)).file = none) := by
  refine ⟨fun st => rfl, fun st => rfl, ?_⟩
  intro bs compress hall
  have hfilter : (bs.filter fun b => !b.isEmpty) = [] := by
    rw [List.filter_eq_nil_iff]
    intro b hb
    simp [hall b hb]
  constructor
  · rw [csvRun_characterization, hfilter]
  · rw [csvRun_characterization, hfilter]
    rfl

/-- Witness for C10 at a concrete input: two empty batches leave the CSV writer in
its initial state. -/
theorem C10_empty_batch_noop_witness :
    ([[], []] : List (List PRow)).foldl CSVStreamWriter.write (CSVStreamWriter.init false) =
      CSVStreamWriter.init false :=
  ((C10_empty_batch_noop).2.2 [[], []] false (by decide)).1

/-- Number of rows of a batch kept by the state filter. -/
def countMatched (col : List Char) (allowed : List (List Char)) (rows : List PRow) : Nat :=
  (rows.filter (rowMatches allowed col)).length

/-- Number of fully empty rows of a batch. -/
def countEmpty (rows : List PRow) : Nat :=
  (rows.filter fullyEmpty).length

/-- Number of rows of a batch that are neither matched nor fully empty. -/
def countUnmatched (col : List Char) (allowed : List (List Char)) (rows : List PRow) : Nat :=
  (rows.filter fun r => !(rowMatches allowed col r) && !(fullyEmpty r)).length

/-- Per-file sum of rows delivered by the reader. -/
def sumIn (fs : List SourceFile) : Nat :=
  (fs.map fun f => (parsedRows f).length).sum

/-- Per-file sum of matched rows. -/
def sumMatched (col : List Char) (allowed : List (List Char)) (fs : List SourceFile) : Nat :=
  (fs.map fun f => countMatched col allowed (parsedRows f)).sum

/-- Per-file sum of fully empty rows. -/
def sumEmpty (fs : List SourceFile) : Nat :=
  (fs.map fun f => countEmpty (parsedRows f)).sum

/-- Per-file sum of unmatched non-empty rows. -/
def sumUnmatched (col : List Char) (allowed : List (List Char)) (fs : List SourceFile) : Nat :=
  (fs.map fun f => countUnmatched col allowed (parsedRows f)).sum

/-- A row with a successfully read non-NA cell is not fully empty. -/
theorem fullyEmpty_false_of_cell {r : PRow} {col v : List Char}
    (h : getCell r col = some v) : fullyEmpty r = false := by
  induction r with
  | nil =>
    simp [getCell, List.lookup] at h
  | cons p t ih =>
    obtain ⟨k, val⟩ := p
    by_cases hk : (col == k) = true
    · have hg : getCell ((k, val) :: t) col = val := by
        simp [getCell, List.lookup, hk]
      rw [hg] at h
      subst h
      simp [fullyEmpty]
    · have hg : getCell ((k, val) :: t) col = getCell t col := by
        have hk0 : (col == k) = false := by
          cases hkk : col == k
          · rfl
          · exact absurd hkk hk
        simp [getCell, List.lookup, hk0]
      rw [hg] at h
      have ht := ih h
      unfold fullyEmpty at ht ⊢
      rw [List.all_cons, ht]
      simp

/-- A matching row has a non-NA cell in the state column. -/
theorem rowMatches_cell {allowed : List (List Char)} {col : List Char} {r : PRow}
    (h : rowMatches allowed col r = true) : ∃ v, getCell r col = some v := by
  unfold rowMatches at h
  cases hc : getCell r col with
  | none =>
    rw [hc] at h
    simp [normalizeStateCell] at h
  | some w => exact ⟨w, rfl⟩

/-- A matching row is never fully empty, so the matched and fully-empty row sets
are disjoint. -/
theorem rowMatches_not_empty {allowed : List (List Char)} {col : List Char} {r : PRow}
    (h : rowMatches allowed col r = true) : fullyEmpty r = false := by
  obtain ⟨v, hv⟩ := rowMatches_cell h
  exact fullyEmpty_false_of_cell hv

/-- Every delivered row is matched, unmatched, or fully empty, and the three
counts partition the batch length. -/
theorem length_partition (col : List Char) (allowed : List (List Char)) :
    ∀ rows : List PRow,
      rows.length =
        countMatched col allowed rows + countUnmatched col allowed rows + countEmpty rows := by
  intro rows
  induction rows with
  | nil => rfl
  | cons r t ih =>
    unfold countMatched countUnmatched countEmpty at ih ⊢
    by_cases hm : rowMatches allowed col r = true
    · have he : fullyEmpty r = false := rowMatches_not_empty hm
      simp [List.filter_cons, hm, he]
      omega
    · have hm0 : rowMatches allowed col r = false := by
        cases hmm : rowMatches allowed col r
        · rfl
        · exact absurd hmm hm
      by_cases he : fullyEmpty r = true
      · simp [List.filter_cons, hm0, he]
        omega
      · have he0 : fullyEmpty r = false := by
          cases hee : fullyEmpty r
          · rfl
          · exact absurd hee he
        simp [List.filter_cons, hm0, he0]
        omega

/-- The chunk decomposition covers the delivered rows exactly. -/
theorem chunksOfAux_flatten (fuel : Nat) :
    ∀ (n : Nat) (l : List PRow), l.length ≤ fuel → (chunksOfAux fuel n l).flatten = l := by
  induction fuel with
  | zero =>
    intro n l h
    cases l with
    | nil => rfl
    | cons x xs => simp at h
  | succ fu ih =>
    intro n l h
    cases l with
    | nil => rfl
    | cons x xs =>
      show ((x :: xs.take n) :: chunksOfAux fu n (xs.drop n)).flatten = x :: xs
      rw [List.flatten_cons]
      have hlen : (xs.drop n).length ≤ fu := by
        have hx : xs.length + 1 ≤ fu + 1 := by
          simpa using h
        rw [List.length_drop]
        omega
      rw [ih n (xs.drop n) hlen, List.cons_append, List.take_append_drop]

/-- The reader chunks flatten back to all delivered rows. -/
theorem chunksOf_flatten (n : Nat) (l : List PRow) : (chunksOf n l).flatten = l :=
  chunksOfAux_flatten l.length n l (Nat.le_refl _)

/-- state_filter succeeds and filters by row match when the column is present. -/
theorem state_filter_ok {header : List (List Char)} {col : List Char}
    (hcol : header.contains col = true) (allowed : List (List Char)) (rows : List PRow) :
    state_filter ⟨header, rows⟩ col allowed =
      .ok ⟨header, rows.filter (rowMatches allowed col)⟩ := by
  unfold state_filter
  rw [if_pos hcol]

/-- Explicit form of one chunk step when the column is present. -/
theorem processChunk_ok {header : List (List Char)} {col : List Char}
    (hcol : header.contains col = true) (allowed : List (List Char))
    (c : Counters) (chunk : List PRow) :
    processChunk header col allowed c chunk =
      .ok (⟨c.in_rows + chunk.length,
            c.out_rows + countMatched col allowed chunk,
            c.empty_rows + countEmpty chunk⟩, chunk.filter (rowMatches allowed col)) := by
  unfold processChunk
  rw [state_filter_ok hcol]
  rfl

/-- Matched counts add over concatenation. -/
theorem countMatched_append (col : List Char) (allowed : List (List Char))
    (l1 l2 : List PRow) :
    countMatched col allowed (l1 ++ l2) =
      countMatched col allowed l1 + countMatched col allowed l2 := by
  unfold countMatched
  rw [List.filter_append, List.length_append]

/-- Fully-empty counts add over concatenation. -/
theorem countEmpty_append (l1 l2 : List PRow) :
    countEmpty (l1 ++ l2) = countEmpty l1 + countEmpty l2 := by
  unfold countEmpty
  rw [List.filter_append, List.length_append]

/-- Explicit form of the chunk loop when the column is present: counters only grow
by the totals of the traversed chunks. -/
theorem processChunks_ok {header : List (List Char)} {col : List Char}
    (hcol : header.contains col = true) (allowed : List (List Char)) :
    ∀ (chs : List (List PRow)) (c : Counters),
      processChunks header col allowed c chs =
        .ok (⟨c.in_rows + chs.flatten.length,
              c.out_rows + countMatched col allowed chs.flatten,
              c.empty_rows + countEmpty chs.flatten⟩,
             chs.map fun ch => ch.filter (rowMatches allowed col)) := by
  intro chs
  induction chs with
  | nil =>
    intro c
    simp [processChunks, countMatched, countEmpty]
  | cons ch rest ih =>
    intro c
    unfold processChunks
    rw [processChunk_ok hcol]
    dsimp only
    rw [ih]
    dsimp only
    simp only [List.flatten_cons, List.map_cons, countMatched_append, countEmpty_append,
      List.length_append, Nat.add_assoc]

/-- Explicit form of one file run when the column is present. -/
theorem processFile_ok {f : SourceFile} {col : List Char}
    (hcol : f.header.contains col = true) (allowed : List (List Char)) (n : Nat) :
    processFile f col allowed n =
      .ok (⟨(parsedRows f).length,
            countMatched col allowed (parsedRows f),
            countEmpty (parsedRows f)⟩,
           (chunksOf n (parsedRows f)).map fun ch => ch.filter (rowMatches allowed col)) := by
  unfold processFile
  rw [processChunks_ok hcol, chunksOf_flatten]
  simp

/-- The per-file totals accumulate linearly through the file loop, whatever the
sink does with the written batches. -/
theorem runFiles_ok (col : List Char) (allowed : List (List Char)) (n : Nat) :
    ∀ (fs : List SourceFile), (∀ g ∈ fs, g.header.contains col = true) →
    ∀ (t : Totals) (sk : Sink),
      ∃ sk', runFiles col allowed n (t, sk) fs =
        .ok (⟨t.total_in + sumIn fs,
              t.total_out + sumMatched col allowed fs,
              t.total_bad_empty + sumEmpty fs⟩, sk') := by
  intro fs
  induction fs with
  | nil =>
    intro hall t sk
    refine ⟨sk, ?_⟩
    simp [runFiles, sumIn, sumMatched, sumEmpty]
  | cons f rest ih =>
    intro hall t sk
    have hcol : f.header.contains col = true := hall f (List.mem_cons_self f rest)
    have hrest : ∀ g ∈ rest, g.header.contains col = true :=
      fun g hg => hall g (List.mem_cons_of_mem f hg)
    obtain ⟨sk', hsk'⟩ := ih hrest
      ⟨t.total_in + (parsedRows f).length,
       t.total_out + countMatched col allowed (parsedRows f),
       t.total_bad_empty + countEmpty (parsedRows f)⟩
      (((chunksOf n (parsedRows f)).map fun ch =>
          ch.filter (rowMatches allowed col)).foldl Sink.write sk)
    refine ⟨sk', ?_⟩
    unfold runFiles
    rw [processFile_ok hcol]
    dsimp only
    rw [hsk']
    dsimp only
    simp only [sumIn, sumMatched, sumEmpty, List.map_cons, List.sum_cons, Nat.add_assoc]

/-- The three per-file sums partition the total delivered rows. -/
theorem sums_partition (col : List Char) (allowed : List (List Char)) :
    ∀ fs : List SourceFile,
      sumIn fs = sumMatched col allowed fs + sumUnmatched col allowed fs + sumEmpty fs := by
  intro fs
  induction fs with
  | nil => rfl
  | cons f rest ih =>
    unfold sumIn sumMatched sumUnmatched sumEmpty at ih ⊢
    simp only [List.map_cons, List.sum_cons]
    have hf := length_partition col allowed (parsedRows f)
    omega

/-- C4, amended. The per-chunk counter updates are increment-only; after a full
per-file run the counters satisfy rows-read equal to rows-matched plus
rows-unmatched plus rows-fully-empty, where unmatched counts delivered rows that
neither match nor are fully empty; and the aggregated totals satisfy the same
identity across all sources. Lines the tolerant reader drops for a wrong field
count are outside all counters (see the counterexample). -/
theorem C4_counter_invariants (col : List Char) (allowed : List (List Char)) (n : Nat) :
    (∀ (header : List (List Char)) (c : Counters) (chunk : List PRow)
        (c' : Counters) (w : List PRow),
      processChunk header col allowed c chunk = .ok (c', w) →
        c.in_rows ≤ c'.in_rows ∧ c.out_rows ≤ c'.out_rows ∧ c.empty_rows ≤ c'.empty_rows) ∧
    (∀ f : SourceFile, f.header.contains col = true →
      ∃ c w, processFile f col allowed n = .ok (c, w) ∧
        c.in_rows = (parsedRows f).length ∧
        c.in_rows = c.out_rows + countUnmatched col allowed (parsedRows f) + c.empty_rows) ∧
    (∀ fs : List SourceFile, (∀ g ∈ fs, g.header.contains col = true) → ∀ sk : Sink,
      ∃ t sk', runFiles col allowed n (⟨0, 0, 0⟩, sk) fs = .ok (t, sk') ∧
        t.total_in = t.total_out + sumUnmatched col allowed fs + t.total_bad_empty) := by
  refine ⟨?_, ?_, ?_⟩
  · intro header c chunk c' w h
    unfold processChunk at h
    cases hs : state_filter ⟨header, chunk⟩ col allowed with
    | error e =>
      rw [hs] at h
      cases h
    | ok filtered =>
      rw [hs] at h
      injection h with hpair
      have hc' : c' = ⟨c.in_rows + chunk.length, c.out_rows + filtered.rows.length,
          c.empty_rows + (chunk.filter fullyEmpty).length⟩ := by
        have := congrArg Prod.fst hpair
        exact this.symm
      subst hc'
      exact ⟨Nat.le_add_right _ _, Nat.le_add_right _ _, Nat.le_add_right _ _⟩
  · intro f hcol
    refine ⟨_, _, processFile_ok hcol allowed n, rfl, ?_⟩
    exact length_partition col allowed (parsedRows f)
  · intro fs hall sk
    obtain ⟨sk', hsk'⟩ := runFiles_ok col allowed n fs hall ⟨0, 0, 0⟩ sk
    refine ⟨_, sk', hsk', ?_⟩
    have := sums_partition col allowed fs
    simp only []
    omega

/-- Witness for C4 at a concrete input: a one-line file whose single row matches. -/
theorem C4_counter_invariants_witness :
    (⟨["state".data], [[some "MISSOURI".data]]⟩ : SourceFile).header.contains "state".data
        = true ∧
    (∃ c w, processFile ⟨["state".data], [[some "MISSOURI".data]]⟩ "state".data
        ["MISSOURI".data] 0 = .ok (c, w) ∧
      c.in_rows = (parsedRows ⟨["state".data], [[some "MISSOURI".data]]⟩).length ∧
      c.in_rows = c.out_rows + countUnmatched "state".data ["MISSOURI".data]
          (parsedRows ⟨["state".data], [[some "MISSOURI".data]]⟩) + c.empty_rows) :=
  ⟨by decide, (C4_counter_invariants "state".data ["MISSOURI".data] 0).2.1
    ⟨["state".data], [[some "MISSOURI".data]]⟩ (by decide)⟩

/-- A two-line source whose second line has more fields than the header and is
silently skipped by the tolerant reader. -/
def demoBadFile : SourceFile :=
  ⟨["state".data], [[some "MISSOURI".data], [some "KANSAS".data, some "XX".data]]⟩

/-- Counterexample to C4 as stated: the second data line of demoBadFile is dropped
by the tolerant reader, yet rows-read sees one row only and the malformed
counter stays zero, so the dropped row is counted and reported nowhere. -/
theorem C4_counterexample :
    droppedLines demoBadFile = 1 ∧
    demoBadFile.lines.length = 2 ∧
    processFile demoBadFile "state".data ["MISSOURI".data] 0 =
      .ok (⟨1, 1, 0⟩, [[[("state".data, some "MISSOURI".data)]]]) :=
  ⟨rfl, rfl, rfl⟩

/-- C8. A run with an erroneous configuration fails before streaming with a
non-zero exit status: an empty glob makes discovery raise the FileNotFoundError
naming the pattern so main never reaches process_files, and an output format
outside csv, csv.gz and parquet is rejected by argparse with exit status two,
with build_output_targets raising the ValueError naming the format if it were
ever reached. -/
theorem C8_config_errors (globbed : List SourceFile) (pattern fmt col : List Char)
    (states : List (List Char)) (n : Nat) :
    (globbed = [] →
      mainRun globbed pattern fmt col states n =
          .error ("No input files found for pattern: ".data ++ pattern) ∧
        cliExit globbed pattern fmt col states n ≠ 0) ∧
    (argparseOk fmt = false →
      cliExit globbed pattern fmt col states n = 2 ∧
      build_output_targets fmt = .error ("Unknown output format: ".data ++ fmt)) := by
  constructor
  · intro hempty
    subst hempty
    have hmain : mainRun [] pattern fmt col states n =
        .error ("No input files found for pattern: ".data ++ pattern) := rfl
    refine ⟨hmain, ?_⟩
    unfold cliExit
    by_cases hf : argparseOk fmt = true
    · rw [if_pos hf, hmain]
      simp
    · rw [if_neg hf]
      decide
  · intro hbad
    constructor
    · unfold cliExit
      rw [if_neg (by rw [hbad]; simp)]
    · unfold argparseOk at hbad
      simp only [Bool.or_eq_false_iff] at hbad
      obtain ⟨⟨h1, h2⟩, h3⟩ := hbad
      unfold build_output_targets
      rw [if_neg (by rw [h1]; simp), if_neg (by rw [h2]; simp), if_neg (by rw [h3]; simp)]

/-- Witness for C8 at concrete inputs: an empty glob fails with the diagnostic
naming the pattern, and the unknown format xml exits with status two. -/
theorem C8_config_errors_witness :
    mainRun [] "raw".data "csv".data "state".data ["MISSOURI".data] 0 =
        .error ("No input files found for pattern: ".data ++ "raw".data) ∧
    cliExit [] "raw".data "xml".data "state".data ["MISSOURI".data] 0 = 2 := by
  constructor
  · exact ((C8_config_errors [] "raw".data "csv".data "state".data
      ["MISSOURI".data] 0).1 rfl).1
  · exact ((C8_config_errors [] "raw".data "xml".data "state".data
      ["MISSOURI".data] 0).2 (by decide)).1

/-- C9. The argparse append action with the list default keeps MISSOURI in the
allow-list of every invocation, so a row whose state cell normalizes to
MISSOURI is kept by state_filter whatever extra states the user requested. -/
theorem C9_missouri_always_matched (user : List (List Char)) :
    ("MISSOURI".data ∈ (parseStateValues user).map fun s => pyUpper (pyStrip s)) ∧
    (∀ (df : PFrame) (col : List Char) (r : PRow) (v : List Char),
      df.cols.contains col = true →
      r ∈ df.rows →
      getCell r col = some v →
      pyUpper (pyStrip v) = "MISSOURI".data →
      ∃ out, state_filter df col
          ((parseStateValues user).map fun s => pyUpper (pyStrip s)) = .ok out ∧
        r ∈ out.rows) := by
  constructor
  · show "MISSOURI".data ∈ ("MISSOURI".data :: user).map fun s => pyUpper (pyStrip s)
    rw [List.map_cons]
    exact List.mem_cons_self _ _
  · intro df col r v hcol hr hv hnorm
    refine ⟨⟨df.cols, df.rows.filter
      (rowMatches ((parseStateValues user).map fun s => pyUpper (pyStrip s)) col)⟩, ?_, ?_⟩
    · unfold state_filter
      rw [if_pos hcol]
    · rw [List.mem_filter]
      refine ⟨hr, ?_⟩
      unfold rowMatches normalizeStateCell
      rw [hv]
      dsimp only [Option.map]
      rw [hnorm]
      have hmem : "MISSOURI".data ∈
          (("MISSOURI".data :: user).map fun s => pyUpper (pyStrip s)) := by
        rw [List.map_cons]
        exact List.mem_cons_self _ _
      exact List.elem_eq_true_of_mem hmem

/-- Witness for C9 at a concrete input: with the user requesting only KANSAS, a
row whose state cell is a padded mixed-case Missouri is still kept. -/
theorem C9_missouri_always_matched_witness :
    ∃ out, state_filter ⟨["state".data], [[("state".data, some " Missouri ".data)]]⟩
        "state".data ((parseStateValues ["KANSAS".data]).map fun s => pyUpper (pyStrip s)) =
        .ok out ∧
      [("state".data, some " Missouri ".data)] ∈ out.rows :=
  (C9_missouri_always_matched ["KANSAS".data]).2
    ⟨["state".data], [[("state".data, some " Missouri ".data)]]⟩ "state".data
    [("state".data, some " Missouri ".data)] " Missouri ".data
    (by decide) (by decide) (by decide) (by decide)

end MoVA
